import Mathlib

/-!
Verification development for the `ai-tab-assistant` browser extension.

The definitions below are shallow embeddings of the JavaScript functions in
`src/sidepanel/panel.js` (chat panel), the background service worker and the
options page (content extraction, OpenAI dispatch, settings).  JavaScript
strings are modelled as Lean `String`s (one `Char` per UTF-16 code unit of the
source value), arrays as `List`s, and the pieces of mutable panel state that
the claims mention as an explicit `PanelState` record.  DOM inputs that a
function reads (parsed URLs, form fields, label texts) are passed in as
explicit arguments, universally quantified in the theorems.
-/

namespace AITab

/-- JavaScript `s.slice(0, n)` / `s.substring(0, n)`: the first `n` characters
of `s` (all of `s` when it is shorter). -/
def strTake (s : String) (n : Nat) : String := ⟨s.data.take n⟩

theorem strTake_length_le (s : String) (n : Nat) : (strTake s n).length ≤ n := by
  show (s.data.take n).length ≤ n
  simp [List.length_take]

/-- Role of a conversation turn (`'user'` / `'assistant'` in the source). -/
inductive Role where
  | user
  | assistant
deriving DecidableEq, Repr

/-- One conversation turn: `{ role, content }` objects pushed onto
`conversationHistory` in `panel.js`. -/
structure Turn where
  role : Role
  content : String
deriving DecidableEq, Repr

/-- The new-history computation of `sendMessage` (`panel.js` lines 446-454):
push the user turn and the assistant turn, then
`if (conversationHistory.length > 20) conversationHistory =
conversationHistory.slice(-20)`.  `slice(-20)` keeps the last 20 elements,
i.e. drops `length - 20` elements from the front. -/
def sendMessageHistoryUpdate (history : List Turn) (userContent response : String) :
    List Turn :=
  let h := history ++ [⟨Role.user, userContent⟩, ⟨Role.assistant, response⟩]
  if 20 < h.length then h.drop (h.length - 20) else h

/-- Display-string truncation `truncateUrl` (`panel.js` lines 206-218).
`parsed` is the result of `new URL(url)`: `some ⟨hostname, pathname⟩` when the
constructor succeeds and `none` when it throws (the `catch` branch). -/
structure URLParts where
  hostname : String
  pathname : String

def truncateUrl (url : String) (parsed : Option URLParts) : String :=
  if url = "" then ""
  else
    match parsed with
    | some p =>
      let display := p.hostname ++ p.pathname
      if 40 < display.length then strTake display 37 ++ "..." else display
    | none => strTake url 40

/-- JavaScript `s.trim()`: strip leading and trailing whitespace. -/
def trimStr (s : String) : String :=
  ⟨((s.data.dropWhile Char.isWhitespace).reverse.dropWhile Char.isWhitespace).reverse⟩

/-- Helper for the regex `/\[ATTACHED FILE:.*?\]/g` used when titling a new
chat (`panel.js` line 807): starting right after `[ATTACHED FILE:`, the lazy
`.*?\]` matches up to the first `]`, with `.` not crossing a newline.  Returns
the remainder after that first `]`, or `none` when no `]` occurs before a
newline or the end. -/
def findCloseBracket : List Char → Option (List Char)
  | [] => none
  | c :: cs => if c = ']' then some cs else if c = '\n' then none else findCloseBracket cs

def attachedTagOpen : List Char := "[ATTACHED FILE:".data

/-- Left-to-right scan of `title.replace(/\[ATTACHED FILE:.*?\]/g, '')`: at
each position, if the tag pattern matches, the whole match is deleted and the
scan resumes after it, otherwise the character is kept.  `fuel` (initially the
input length) only pays for termination; each step consumes at least one
character. -/
def removeAttachedTagsAux : Nat → List Char → List Char
  | 0, l => l
  | _ + 1, [] => []
  | fuel + 1, c :: cs =>
    if attachedTagOpen.isPrefixOf (c :: cs) then
      match findCloseBracket ((c :: cs).drop attachedTagOpen.length) with
      | some rest => removeAttachedTagsAux fuel rest
      | none => c :: removeAttachedTagsAux fuel cs
    else
      c :: removeAttachedTagsAux fuel cs

def removeAttachedFileTags (s : String) : String :=
  ⟨removeAttachedTagsAux s.data.length s.data⟩

/-- A saved conversation thread (`panel.js`, objects in `savedChats`). -/
structure SavedChat where
  id : String
  title : String
  messages : List Turn
  createdAt : Nat
  updatedAt : Nat
deriving DecidableEq, Repr

/-- The mutable panel state touched by chat persistence:
`conversationHistory`, `currentChatId` and `savedChats` in `panel.js`. -/
structure PanelState where
  conversationHistory : List Turn
  currentChatId : Option String
  savedChats : List SavedChat
deriving DecidableEq, Repr

/-- `findIndex` + in-place assignment in `saveCurrentChat`: replace the first
element satisfying `p` by its image under `f`; no match leaves the list
unchanged (the source guards with `chatIndex !== -1`). -/
def updateFirstChat (p : SavedChat → Bool) (f : SavedChat → SavedChat) :
    List SavedChat → List SavedChat
  | [] => []
  | c :: cs => if p c then f c :: cs else c :: updateFirstChat p f cs

/-- Title derivation in `saveCurrentChat` (`panel.js` lines 792-793 and 807):
first 50 characters of the first user turn, falling back to `'New Chat'`, with
`[ATTACHED FILE:...]` tags stripped and the result trimmed on creation. -/
def newChatTitle (hist : List Turn) : String :=
  let firstUserMsg := hist.find? (fun m => m.role == Role.user)
  let title0 := match firstUserMsg with
    | some m => strTake m.content 50
    | none => ""
  let title := if title0 = "" then "New Chat" else title0
  let cleaned := trimStr (removeAttachedFileTags title)
  if cleaned = "" then "New Chat" else cleaned

/-- The thread record pushed by the create branch of `saveCurrentChat`
(`panel.js` lines 804-811). -/
def mkNewChat (hist : List Turn) (now : Nat) : SavedChat :=
  { id := "chat-" ++ toString now, title := newChatTitle hist,
    messages := hist, createdAt := now, updatedAt := now }

/-- `saveCurrentChat` (`panel.js` lines 787-823).  `now` is `Date.now()`;
the source calls it separately for the id, `createdAt` and `updatedAt`, all
within the same tick, modelled as a single value. -/
def saveCurrentChat (s : PanelState) (now : Nat) : PanelState :=
  if s.conversationHistory.length = 0 then s
  else
    match s.currentChatId with
    | some cid =>
      let upd := fun c =>
        { c with messages := s.conversationHistory, updatedAt := now }
      { s with savedChats := updateFirstChat (fun c => c.id == cid) upd s.savedChats }
    | none =>
      let newId := "chat-" ++ toString now
      { s with
        currentChatId := some newId
        savedChats := s.savedChats ++ [mkNewChat s.conversationHistory now] }

/-- `loadChat` (`panel.js` lines 828-846): look the thread up by id; absent
ids are a no-op, otherwise the stored turns replace the in-memory history. -/
def loadChat (s : PanelState) (chatId : String) : PanelState :=
  match s.savedChats.find? (fun c => c.id == chatId) with
  | none => s
  | some chat =>
    { s with currentChatId := some chatId, conversationHistory := chat.messages }

/-- `startNewChat` (`panel.js` lines 873-909), state part: clear the current
chat id and the in-memory history. -/
def startNewChat (s : PanelState) : PanelState :=
  { s with currentChatId := none, conversationHistory := [] }

/-- `deleteChat` (`panel.js` lines 851-868): drop every saved thread whose id
matches, then, if the deleted thread was the active one, start a fresh chat. -/
def deleteChat (s : PanelState) (chatId : String) : PanelState :=
  let s1 := { s with savedChats := s.savedChats.filter (fun c => c.id != chatId) }
  if s.currentChatId = some chatId then startNewChat s1 else s1

/-- The comparator `(a, b) => b.updatedAt - a.updatedAt` of `renderChatsList`
(`panel.js` line 750) keeps `a` before `b` exactly when
`b.updatedAt ≤ a.updatedAt`. -/
def chatMoreRecent (a b : SavedChat) : Prop := b.updatedAt ≤ a.updatedAt

instance : DecidableRel chatMoreRecent := fun _ _ => Nat.decLe _ _

instance : IsTotal SavedChat chatMoreRecent :=
  ⟨fun a b => Nat.le_total b.updatedAt a.updatedAt⟩

instance : IsTrans SavedChat chatMoreRecent :=
  ⟨fun _ _ _ hab hbc => Nat.le_trans hbc hab⟩

/-- The order in which `renderChatsList` (`panel.js` lines 743-764) presents
the saved threads: `savedChats.sort((a, b) => b.updatedAt - a.updatedAt)`,
modelled as a stable comparison sort with that comparator. -/
def renderChatsListOrder (chats : List SavedChat) : List SavedChat :=
  List.insertionSort chatMoreRecent chats

theorem find?_updateFirstChat (cid : String) (f : SavedChat → SavedChat)
    (hf : ∀ c, (f c).id = c.id) (l : List SavedChat) :
    (updateFirstChat (fun c => c.id == cid) f l).find? (fun c => c.id == cid) =
      (l.find? (fun c => c.id == cid)).map f := by
  induction l with
  | nil => rfl
  | cons c cs ih =>
    by_cases h : c.id = cid
    · have hb : (c.id == cid) = true := by simp [h]
      have hfb : ((f c).id == cid) = true := by simp [hf c, h]
      simp [updateFirstChat, hb, List.find?, hfb]
    · have hb : (c.id == cid) = false := by simp [h]
      simp [updateFirstChat, hb, List.find?, ih]

theorem find?_append_fresh (l : List SavedChat) (x : SavedChat) (cid : String)
    (h : ∀ c ∈ l, c.id ≠ cid) (hx : x.id = cid) :
    (l ++ [x]).find? (fun c => c.id == cid) = some x := by
  induction l with
  | nil => simp [List.find?, hx]
  | cons c cs ih =>
    have hc : (c.id == cid) = false := by
      simp [h c (List.mem_cons_self c cs)]
    simp only [List.cons_append, List.find?, hc]
    exact ih (fun d hd => h d (List.mem_cons_of_mem c hd))

theorem saveCurrentChat_some (hist : List Turn) (chats : List SavedChat)
    (cid0 : String) (now : Nat) (h : ¬ hist.length = 0) :
    saveCurrentChat ⟨hist, some cid0, chats⟩ now =
      ⟨hist, some cid0,
        updateFirstChat (fun c => c.id == cid0)
          (fun c => { c with messages := hist, updatedAt := now }) chats⟩ := by
  simp [saveCurrentChat, h]

theorem saveCurrentChat_none (hist : List Turn) (chats : List SavedChat)
    (now : Nat) (h : ¬ hist.length = 0) :
    saveCurrentChat ⟨hist, none, chats⟩ now =
      ⟨hist, some ("chat-" ++ toString now), chats ++ [mkNewChat hist now]⟩ := by
  simp [saveCurrentChat, h]

theorem loadChat_conversationHistory (s : PanelState) (cid : String) :
    (loadChat s cid).conversationHistory =
      match s.savedChats.find? (fun c => c.id == cid) with
      | none => s.conversationHistory
      | some chat => chat.messages := by
  unfold loadChat
  cases s.savedChats.find? (fun c => c.id == cid) <;> rfl

end AITab

/-- C2: for every conversation history and successful exchange, after
`sendMessage` appends the new user and assistant turns, the retained history
has at most 20 entries, and what is retained is a suffix of the appended list
(only oldest entries are ever dropped). -/
theorem sendMessage_history_bounded_suffix
    (history : List AITab.Turn) (userContent response : String) :
    (AITab.sendMessageHistoryUpdate history userContent response).length ≤ 20 ∧
      AITab.sendMessageHistoryUpdate history userContent response <:+
        history ++ [⟨AITab.Role.user, userContent⟩, ⟨AITab.Role.assistant, response⟩] := by
  unfold AITab.sendMessageHistoryUpdate
  set h := history ++ [(⟨AITab.Role.user, userContent⟩ : AITab.Turn),
    ⟨AITab.Role.assistant, response⟩] with hh
  by_cases hc : 20 < h.length
  · simp only [hc, if_true]
    refine ⟨?_, List.drop_suffix _ _⟩
    rw [List.length_drop]
    omega
  · simp only [hc, if_false]
    exact ⟨by omega, List.suffix_refl _⟩

/-- C10: whatever the input string and whatever the URL parser does with it
(including the unparseable case, where the fallback branch is taken), the
display string returned by `truncateUrl` has at most 40 characters. -/
theorem truncateUrl_length_le_40 (url : String) (parsed : Option AITab.URLParts) :
    (AITab.truncateUrl url parsed).length ≤ 40 := by
  unfold AITab.truncateUrl
  by_cases hu : url = ""
  · simp [hu]
  · simp only [hu, if_false]
    match parsed with
    | none =>
      simp only
      exact le_trans (AITab.strTake_length_le url 40) (by omega)
    | some p =>
      simp only
      set d := p.hostname ++ p.pathname with hd
      by_cases hl : 40 < d.length
      · simp only [hl, if_true]
        rw [String.length_append]
        have h1 := AITab.strTake_length_le d 37
        have h2 : ("..." : String).length = 3 := rfl
        omega
      · simp only [hl, if_false]
        omega

/-- C3: saving a non-empty conversation with `saveCurrentChat` and then
loading the resulting thread id with `loadChat` reproduces exactly the
in-memory turn sequence.  The freshness hypothesis says the id `'chat-' +
Date.now()` minted for a newly created thread does not collide with an
already saved thread id. -/
theorem saveCurrentChat_loadChat_roundtrip
    (s : AITab.PanelState) (now : Nat) (cid : String)
    (hne : s.conversationHistory ≠ [])
    (hfresh : s.currentChatId = none →
      ("chat-" ++ toString now) ∉ s.savedChats.map AITab.SavedChat.id)
    (hcid : (AITab.saveCurrentChat s now).currentChatId = some cid) :
    (AITab.loadChat (AITab.saveCurrentChat s now) cid).conversationHistory =
      s.conversationHistory := by
  obtain ⟨hist, ccid, chats⟩ := s
  have hlen : ¬ hist.length = 0 := by
    simpa [List.length_eq_zero] using hne
  cases ccid with
  | some cid0 =>
    rw [AITab.saveCurrentChat_some hist chats cid0 now hlen] at hcid ⊢
    have hc : cid0 = cid := by simpa using hcid
    subst hc
    rw [AITab.loadChat_conversationHistory]
    simp only
    rw [AITab.find?_updateFirstChat cid0
      (fun c => { c with messages := hist, updatedAt := now }) (fun _ => rfl) chats]
    cases hfind : chats.find? (fun c => c.id == cid0) with
    | none => simp
    | some c => simp
  | none =>
    rw [AITab.saveCurrentChat_none hist chats now hlen] at hcid ⊢
    have hc : ("chat-" ++ toString now) = cid := by simpa using hcid
    have hnotin := hfresh rfl
    simp only at hnotin
    rw [hc] at hnotin
    have hfr : ∀ c ∈ chats, c.id ≠ cid := fun c hcm heq =>
      hnotin (List.mem_map.mpr ⟨c, hcm, heq⟩)
    rw [AITab.loadChat_conversationHistory]
    simp only
    rw [AITab.find?_append_fresh chats (AITab.mkNewChat hist now) cid hfr
      (by simpa [AITab.mkNewChat] using hc)]
    rfl

/-- Concrete two-turn conversation used to witness the round-trip theorem. -/
def exState3 : AITab.PanelState :=
  ⟨[⟨AITab.Role.user, "hello"⟩, ⟨AITab.Role.assistant, "hi"⟩], none, []⟩

/-- Witness for C3: saving the concrete conversation `exState3` at time 7 and
loading thread `chat-7` gives back the same turns. -/
theorem saveCurrentChat_loadChat_roundtrip_witness :
    (AITab.saveCurrentChat exState3 7).currentChatId = some "chat-7" ∧
      (AITab.loadChat (AITab.saveCurrentChat exState3 7) "chat-7").conversationHistory =
        exState3.conversationHistory := by
  have h1 : (AITab.saveCurrentChat exState3 7).currentChatId = some "chat-7" := by decide
  exact ⟨h1, saveCurrentChat_loadChat_roundtrip exState3 7 "chat-7" (by decide)
    (fun _ => by decide) h1⟩

/-- C6: `renderChatsList` presents the saved threads sorted with the
most-recently-updated first: the rendered order is sorted by non-increasing
`updatedAt` and is a permutation of the stored thread list. -/
theorem renderChatsList_most_recent_first (chats : List AITab.SavedChat) :
    List.Sorted AITab.chatMoreRecent (AITab.renderChatsListOrder chats) ∧
      (AITab.renderChatsListOrder chats).Perm chats :=
  ⟨List.sorted_insertionSort _ _, List.perm_insertionSort _ _⟩

/-- C9: `deleteChat` removes exactly the saved threads whose id matches the
argument (every survivor is an original non-matching thread, every original
non-matching thread survives, and the relative order is preserved), and it
touches the in-memory conversation and current-chat id only when the deleted
thread is the active one, in which case a fresh empty conversation starts. -/
theorem deleteChat_frame (s : AITab.PanelState) (cid : String) :
    (∀ c ∈ (AITab.deleteChat s cid).savedChats, c.id ≠ cid ∧ c ∈ s.savedChats) ∧
    (∀ c ∈ s.savedChats, c.id ≠ cid → c ∈ (AITab.deleteChat s cid).savedChats) ∧
    (AITab.deleteChat s cid).savedChats.Sublist s.savedChats ∧
    ((AITab.deleteChat s cid).conversationHistory =
      if s.currentChatId = some cid then [] else s.conversationHistory) ∧
    ((AITab.deleteChat s cid).currentChatId =
      if s.currentChatId = some cid then none else s.currentChatId) := by
  have hsaved : (AITab.deleteChat s cid).savedChats =
      s.savedChats.filter (fun c => c.id != cid) := by
    unfold AITab.deleteChat AITab.startNewChat
    by_cases h : s.currentChatId = some cid <;> simp [h]
  refine ⟨?_, ?_, ?_, ?_, ?_⟩
  · intro c hc
    rw [hsaved] at hc
    have hm := List.mem_filter.mp hc
    exact ⟨by simpa using hm.2, hm.1⟩
  · intro c hc hne
    rw [hsaved]
    exact List.mem_filter.mpr ⟨hc, by simpa using hne⟩
  · rw [hsaved]
    exact List.filter_sublist _
  · unfold AITab.deleteChat AITab.startNewChat
    by_cases h : s.currentChatId = some cid <;> simp [h]
  · unfold AITab.deleteChat AITab.startNewChat
    by_cases h : s.currentChatId = some cid <;> simp [h]

/-- Concrete saved threads and panel state used to witness `deleteChat_frame`. -/
def exChatA : AITab.SavedChat := ⟨"a", "A", [⟨AITab.Role.user, "qa"⟩], 1, 5⟩

def exChatB : AITab.SavedChat := ⟨"b", "B", [], 2, 3⟩

def exState9 : AITab.PanelState :=
  ⟨[⟨AITab.Role.user, "hi"⟩], some "a", [exChatA, exChatB]⟩

/-- Witness for C9: deleting the non-active thread `b` keeps thread `a` and
leaves the in-memory conversation untouched. -/
theorem deleteChat_frame_witness :
    exChatA ∈ (AITab.deleteChat exState9 "b").savedChats ∧
      (AITab.deleteChat exState9 "b").conversationHistory =
        exState9.conversationHistory := by
  have h := deleteChat_frame exState9 "b"
  refine ⟨h.2.1 exChatA (by decide) (by decide), ?_⟩
  rw [h.2.2.2.1]
  decide

namespace AITab

/-- JavaScript `s.startsWith(p)`. -/
def strStartsWith (s p : String) : Bool := p.data.isPrefixOf s.data

/-- JavaScript `s.toLowerCase()` (ASCII part, which is all the source uses it
for: tag names). -/
def strToLower (s : String) : String := ⟨s.data.map Char.toLower⟩

/-- A single-quote character, spliced into string constants taken verbatim
from the source. -/
def apos : String := ⟨[Char.ofNat 39]⟩

/-- `DEFAULT_SYSTEM_PROMPT` of the options page (also the default
`systemPrompt` in the background worker's `getSettings`). -/
def DEFAULT_SYSTEM_PROMPT : String :=
  "You are a highly capable AI assistant analyzing the user" ++ apos ++
  "s current browser tab. You have COMPLETE access to all page content provided below - this includes ALL text, data, tables, numbers, and information visible on the page.\n\nCRITICAL INSTRUCTIONS:\n1. ALWAYS analyze the ACTUAL DATA provided in the page content - never give generic advice\n2. Reference SPECIFIC numbers, keywords, metrics, and data points from the page\n3. If you see tables, extract and analyze the actual values\n4. Quote specific text from the page when relevant\n5. If asked about data that IS in the page content, provide detailed analysis WITH the actual data\n6. Only say \"information not available\" if you genuinely cannot find it in the provided content\n\nYou are seeing the SAME content the user sees. Analyze it thoroughly."

/-- Persisted settings (`apiKey`, `model`, `maxTokens`, `systemPrompt`). -/
structure Settings where
  apiKey : String
  model : String
  maxTokens : Nat
  systemPrompt : String
deriving DecidableEq, Repr

/-- What `fetchModels` (options page) does before any network traffic:
either shows a status error and returns, or proceeds to `fetch` with the
given bearer credential. -/
inductive FetchOutcome where
  | errorStatus (msg : String)
  | networkRequest (bearer : String)
deriving DecidableEq, Repr

/-- The pre-network part of `fetchModels`: trim the key field, reject an
empty key, reject a key that does not start with `sk-`, otherwise start the
GET request. -/
def fetchModelsStart (apiKeyField : String) : FetchOutcome :=
  let apiKey := trimStr apiKeyField
  if apiKey = "" then
    .errorStatus "Please enter an API key first"
  else if strStartsWith apiKey "sk-" = false then
    .errorStatus ("Invalid API key format. Should start with \"sk-\"")
  else
    .networkRequest apiKey

/-- Outcome of `saveSettings` (options page): a status error, or storing the
assembled settings record.  `saveSettings` performs no network call in either
case. -/
inductive SaveOutcome where
  | errorStatus (msg : String)
  | store (s : Settings)
deriving DecidableEq, Repr

/-- `saveSettings` (options page).  `maxTokensField` is the result of
`parseInt(elements.maxTokens.value, 10)` (`none` for NaN); `|| 2000` maps NaN
and 0 to 2000. -/
def saveSettingsStart (apiKeyField modelField : String) (maxTokensField : Option Nat)
    (systemPromptField : String) : SaveOutcome :=
  let apiKey := trimStr apiKeyField
  let maxTokens := match maxTokensField with
    | some n => if n = 0 then 2000 else n
    | none => 2000
  let systemPrompt := trimStr systemPromptField
  if apiKey ≠ "" ∧ strStartsWith apiKey "sk-" = false then
    .errorStatus ("Invalid API key format. Should start with \"sk-\"")
  else if apiKey = "" then
    .errorStatus "Please enter an API key"
  else if modelField = "" then
    .errorStatus ("Please select a model (click \"Load Models\" first)")
  else if maxTokens < 100 ∨ 16000 < maxTokens then
    .errorStatus "Max tokens must be between 100 and 16000"
  else
    .store ⟨apiKey, modelField, maxTokens,
      if systemPrompt = "" then DEFAULT_SYSTEM_PROMPT else systemPrompt⟩

/-- What `callOpenAI` (background worker) does before any network traffic:
throw, or issue the POST with the stored credential as bearer token. -/
inductive CallOutcome where
  | thrown (msg : String)
  | networkRequest (bearer : String)
deriving DecidableEq, Repr

/-- The pre-network part of `callOpenAI`: only a missing (empty) `apiKey` is
rejected; any other stored credential reaches `fetch`. -/
def callOpenAIStart (settings : Settings) : CallOutcome :=
  if settings.apiKey = "" then
    .thrown "API key not configured. Click the gear icon to add your OpenAI API key."
  else
    .networkRequest settings.apiKey

end AITab

/-- Counterexample to C4: the stored credential `'abc'` does not start with
`sk-`, yet `callOpenAI` does not reject it — the chat request proceeds to the
network call with it. -/
theorem callOpenAI_no_prefix_check_counterexample :
    AITab.strStartsWith "abc" "sk-" = false ∧
      AITab.callOpenAIStart ⟨"abc", "gpt-4o-mini", 2000, ""⟩ =
        AITab.CallOutcome.networkRequest "abc" := by
  exact ⟨by decide, by decide⟩

/-- C4 (amended): a credential not starting with `sk-` is rejected before any
network call by `fetchModels` and by `saveSettings`; `callOpenAI` however only
rejects an entirely missing (empty) credential and sends any non-empty one to
the network. -/
theorem credential_prefix_validation
    (apiKeyField modelField systemPromptField : String) (maxTokensField : Option Nat)
    (settings : AITab.Settings)
    (hpre : AITab.strStartsWith (AITab.trimStr apiKeyField) "sk-" = false)
    (_hpre2 : AITab.strStartsWith settings.apiKey "sk-" = false) :
    (∃ msg, AITab.fetchModelsStart apiKeyField = .errorStatus msg) ∧
    (∃ msg, AITab.saveSettingsStart apiKeyField modelField maxTokensField
      systemPromptField = .errorStatus msg) ∧
    (settings.apiKey = "" → AITab.callOpenAIStart settings =
      .thrown "API key not configured. Click the gear icon to add your OpenAI API key.") ∧
    (settings.apiKey ≠ "" → AITab.callOpenAIStart settings =
      .networkRequest settings.apiKey) := by
  refine ⟨?_, ?_, ?_, ?_⟩
  · unfold AITab.fetchModelsStart
    by_cases h : AITab.trimStr apiKeyField = ""
    · exact ⟨"Please enter an API key first", by simp [h]⟩
    · exact ⟨"Invalid API key format. Should start with \"sk-\"", by simp [h, hpre]⟩
  · unfold AITab.saveSettingsStart
    by_cases h : AITab.trimStr apiKeyField = ""
    · refine ⟨"Please enter an API key", ?_⟩
      have hcond : ¬ (AITab.trimStr apiKeyField ≠ "" ∧
          AITab.strStartsWith (AITab.trimStr apiKeyField) "sk-" = false) := by
        simp [h]
      simp [hcond, h]
    · refine ⟨"Invalid API key format. Should start with \"sk-\"", ?_⟩
      have hcond : (AITab.trimStr apiKeyField ≠ "" ∧
          AITab.strStartsWith (AITab.trimStr apiKeyField) "sk-" = false) := ⟨h, hpre⟩
      simp [hcond]
  · intro h
    simp [AITab.callOpenAIStart, h]
  · intro h
    simp [AITab.callOpenAIStart, h]

/-- Witness for C4 (amended) at the concrete credential `'abc'`: both
configuration-page operations reject it, while the chat path sends it out. -/
theorem credential_prefix_validation_witness :
    (∃ msg, AITab.fetchModelsStart "abc" = .errorStatus msg) ∧
      (∃ msg, AITab.saveSettingsStart "abc" "gpt-4o" (some 2000) "" = .errorStatus msg) ∧
      AITab.callOpenAIStart ⟨"abc", "gpt-4o", 2000, "p"⟩ =
        AITab.CallOutcome.networkRequest "abc" := by
  have h := credential_prefix_validation "abc" "gpt-4o" "" (some 2000)
    ⟨"abc", "gpt-4o", 2000, "p"⟩ (by decide) (by decide)
  exact ⟨h.1, h.2.1, h.2.2.2 (by decide)⟩

namespace AITab

/-- JavaScript `s.replace(pat, rep)` with a STRING pattern: replaces only the
first occurrence.  `fuel` (initially the length of `s`) pays for termination. -/
def replaceFirstAux : Nat → List Char → List Char → List Char → List Char
  | 0, l, _, _ => l
  | _ + 1, [], _, _ => []
  | fuel + 1, c :: cs, pat, rep =>
    if pat.isPrefixOf (c :: cs) then rep ++ (c :: cs).drop pat.length
    else c :: replaceFirstAux fuel cs pat rep

def replaceFirst (s pat rep : String) : String :=
  if pat.data = [] then rep ++ s
  else ⟨replaceFirstAux s.data.length s.data pat.data rep.data⟩

/-- Everything `extractForms` (background worker content function) reads from
one `input`/`select`/`textarea` element.  Empty strings model missing/empty
attributes and label elements (both falsy in the `||` chains of the source). -/
structure FieldInput where
  type : String
  tagName : String
  value : String
  checked : Bool
  selectedOptionText : String
  ariaLabel : String
  placeholder : String
  name : String
  forLabelText : String
  closestLabelText : String
deriving DecidableEq, Repr

/-- The label chain of `extractForms`:
`aria-label || placeholder || name || label[for=id].textContent.trim() ||
closest('label').textContent.trim().replace(field.value, '').trim() || ''`. -/
def resolveLabel (f : FieldInput) : String :=
  if f.ariaLabel ≠ "" then f.ariaLabel
  else if f.placeholder ≠ "" then f.placeholder
  else if f.name ≠ "" then f.name
  else if trimStr f.forLabelText ≠ "" then trimStr f.forLabelText
  else trimStr (replaceFirst (trimStr f.closestLabelText) f.value "")

/-- The value chain of `extractForms`: `'[hidden]'` for password fields,
`'checked'`/`'unchecked'` for checkboxes and radios, the selected option text
for selects, and the raw value otherwise. -/
def fieldValue (f : FieldInput) : String :=
  if f.type = "password" then "[hidden]"
  else if f.type = "checkbox" ∨ f.type = "radio" then
    if f.checked then "checked" else "unchecked"
  else if f.tagName = "SELECT" then f.selectedOptionText
  else f.value

/-- One entry of `formData.fields` as pushed by `extractForms`. -/
structure FieldData where
  type : String
  label : String
  value : String
deriving DecidableEq, Repr

/-- `formData.fields.push({type, label: label.slice(0,100),
value: value.slice(0,500)})` with `type: field.type ||
field.tagName.toLowerCase()`. -/
def processFormField (f : FieldInput) : FieldData :=
  { type := if f.type ≠ "" then f.type else strToLower f.tagName
    label := strTake (resolveLabel f) 100
    value := strTake (fieldValue f) 500 }

/-- One `form`/`[role=form]` element as seen by `extractForms`. -/
structure FormInput where
  visible : Bool
  action : String
  fields : List FieldInput
deriving DecidableEq, Repr

/-- One record pushed onto `forms` by `extractForms`. -/
structure FormData where
  index : Nat
  action : String
  fields : List FieldData
deriving DecidableEq, Repr

/-- `extractForms`: iterate all form elements with their index, skip
invisible ones, process each field, and keep only forms with at least one
field. -/
def extractForms (formsIn : List FormInput) : List FormData :=
  formsIn.enum.filterMap fun p =>
    if p.2.visible = false then none
    else
      let fs := p.2.fields.map processFormField
      if fs ≠ [] then some { index := p.1, action := p.2.action, fields := fs }
      else none

/-- A password field inside a `<label>` whose static text happens to contain
the typed password, with no other label source available. -/
def pwField1 : FieldInput :=
  { type := "password", tagName := "INPUT", value := "hunter2", checked := false
    selectedOptionText := "", ariaLabel := "", placeholder := "", name := ""
    forLabelText := "", closestLabelText := "hunter2 Password" }

/-- The same field on an otherwise identical page, with different typed text. -/
def pwField2 : FieldInput :=
  { pwField1 with value := "swordfish" }

end AITab

/-- Counterexample to C8: two pages identical except for the text typed into
a password field can yield different extracted form output — the
`closest('label')` fallback strips `field.value` from the label text, so the
typed password influences the extracted label even though the value itself is
masked. -/
theorem extractForms_password_sensitivity_counterexample :
    AITab.pwField1.type = "password" ∧
      AITab.pwField2 = { AITab.pwField1 with value := AITab.pwField2.value } ∧
      AITab.extractForms [⟨true, "", [AITab.pwField1]⟩] ≠
        AITab.extractForms [⟨true, "", [AITab.pwField2]⟩] := by
  refine ⟨by decide, by decide, by decide⟩

/-- C8 (amended): the value recorded for a password field is always the
constant `'[hidden]'`, independent of the typed text (first two conjuncts,
with no condition on the labels); and two fields identical except for the
typed text produce identical extracted records whenever the label resolves
before the `closest('label')` fallback (aria-label, placeholder, name, or a
`label[for]` element is present), since only that fallback consults
`field.value`. -/
theorem password_field_masked (f g : AITab.FieldInput)
    (hf : f.type = "password")
    (hfields : g = { f with value := g.value }) :
    (AITab.processFormField f).value = "[hidden]" ∧
      (AITab.processFormField g).value = "[hidden]" ∧
      ((f.ariaLabel ≠ "" ∨ f.placeholder ≠ "" ∨ f.name ≠ "" ∨
          AITab.trimStr f.forLabelText ≠ "") →
        AITab.processFormField f = AITab.processFormField g) := by
  refine ⟨?_, ?_, ?_⟩
  · simp [AITab.processFormField, AITab.fieldValue, hf, AITab.strTake]
  · have hg : g.type = "password" := by rw [hfields]; exact hf
    simp [AITab.processFormField, AITab.fieldValue, hg, AITab.strTake]
  · intro hlabel
    obtain ⟨ft, ftag, fv, fch, fsel, faria, fph, fname, ffor, fclose⟩ := f
    obtain ⟨gt, gtag, gv, gch, gsel, garia, gph, gname, gfor, gclose⟩ := g
    simp only [AITab.FieldInput.mk.injEq] at hfields
    obtain ⟨e1, e2, _, e4, e5, e6, e7, e8, e9, e10⟩ := hfields
    subst e1 e2 e4 e5 e6 e7 e8 e9 e10
    simp only at hf hlabel
    subst hf
    simp only [AITab.processFormField, AITab.resolveLabel, AITab.fieldValue]
    rcases hlabel with h | h | h | h <;>
      by_cases ha : garia = "" <;> by_cases hp : gph = "" <;>
      by_cases hn : gname = "" <;> simp_all

/-- A password field with an `aria-label`, in two variants differing only in
the typed text; used to witness `password_field_masked`. -/
def pwFieldW1 : AITab.FieldInput :=
  { type := "password", tagName := "INPUT", value := "a1", checked := false
    selectedOptionText := "", ariaLabel := "Password", placeholder := ""
    name := "", forLabelText := "", closestLabelText := "" }

def pwFieldW2 : AITab.FieldInput :=
  { pwFieldW1 with value := "b2" }

/-- Witness for C8 (amended): both variants record `'[hidden]'`, and with an
`aria-label` present they yield the same record. -/
theorem password_field_masked_witness :
    (AITab.processFormField pwFieldW1).value = "[hidden]" ∧
      (AITab.processFormField pwFieldW2).value = "[hidden]" ∧
      AITab.processFormField pwFieldW1 = AITab.processFormField pwFieldW2 := by
  have h := password_field_masked pwFieldW1 pwFieldW2 (by decide) (by decide)
  exact ⟨h.1, h.2.1, h.2.2 (by decide)⟩

namespace AITab

/-!
`formatContentForAI` (background worker).  The separator rows and icon
prefixes below are copied character-for-character from the source file (which
stores them in a double-encoded form). -/

def pageSep : String :=
  "â•â•â•â•â•â•â•â•â•â•â•â•â•â•â•â•â•â•â•â•â•â•â•â•â•â•â•â•â•â•â•â•â•â•â•â•â•â•â•â•â•â•â•â•â•â•â•â•â•â•â•â•â•â•â•â•â•â•â•â•â•â•â•â•"

def secSep : String :=
  "â•â•â•â•â•â•â•â•â•â•â•â•â•â•â•â•"

def pinIcon : String := "ðŸ“"

def pageIcon : String := "ðŸ“„"

def bulletM : String := "â€¢"

def arrowM : String := "â†’"

def dashes50 : String :=
  "--------------------------------------------------"

/-- One table record produced by `extractTables` (the parts read by
`formatContentForAI`). -/
structure TableData where
  caption : String
  headers : List String
  rows : List (List String)
deriving DecidableEq, Repr

structure MetricData where
  label : String
  value : String
deriving DecidableEq, Repr

structure ChartData where
  title : String
  data : List String
deriving DecidableEq, Repr

structure DataAttrData where
  text : String
  attributes : List (String × String)
deriving DecidableEq, Repr

structure ListData where
  items : List String
deriving DecidableEq, Repr

structure LinkData where
  text : String
  href : String
deriving DecidableEq, Repr

/-- The `extracted` record assembled by `extractPageContent` and consumed by
`formatContentForAI` (the `timestamp` field is never read by the formatter). -/
structure PageData where
  url : String
  title : String
  metaDescription : String
  headings : List String
  tables : List TableData
  metrics : List MetricData
  chartData : List ChartData
  dataAttributes : List DataAttrData
  forms : List FormData
  lists : List ListData
  mainContent : String
  allVisibleText : String
  selectedText : String
  links : List LinkData
deriving DecidableEq, Repr

/-- Leading block of the context template: page separator banner plus URL,
TITLE and DESCRIPTION lines (`metaDescription || 'N/A'`). -/
def headerBlock (d : PageData) : String :=
  pageSep ++ "\n                    COMPLETE PAGE DATA EXTRACTION\n" ++ pageSep ++
  "\n\n" ++ pinIcon ++ " URL: " ++ d.url ++ "\n" ++ pageIcon ++ " TITLE: " ++
  d.title ++ "\n" ++ pinIcon ++ " DESCRIPTION: " ++
  (if d.metaDescription ≠ "" then d.metaDescription else "N/A") ++ "\n\n"

def selectedSection (sel : String) : String :=
  if sel ≠ "" then secSep ++ " SELECTED TEXT " ++ secSep ++ "\n" ++ sel ++ "\n\n"
  else ""

def headingsSection (hs : List String) : String :=
  if hs ≠ [] then
    secSep ++ " PAGE STRUCTURE " ++ secSep ++ "\n" ++
      String.intercalate "\n" hs ++ "\n\n"
  else ""

/-- Per-table block: `--- TABLE i+1 (caption) ---`, a `HEADERS:` line with a
dash rule when headers exist, and one `ROW n:` line per row. -/
def tableBlock (i : Nat) (t : TableData) : String :=
  "\n--- TABLE " ++ toString (i + 1) ++ " " ++
    (if t.caption ≠ "" then "(" ++ t.caption ++ ")" else "") ++ " ---\n" ++
  (if t.headers ≠ [] then
    "HEADERS: " ++ String.intercalate " | " t.headers ++ "\n" ++ dashes50 ++ "\n"
  else "") ++
  String.join (t.rows.enum.map fun r =>
    "ROW " ++ toString (r.1 + 1) ++ ": " ++ String.intercalate " | " r.2 ++ "\n")

def tablesSection (ts : List TableData) : String :=
  if ts ≠ [] then
    secSep ++ " TABLES & DATA GRIDS " ++ secSep ++ "\n" ++
      String.join (ts.enum.map fun p => tableBlock p.1 p.2) ++ "\n"
  else ""

def metricsSection (ms : List MetricData) : String :=
  if ms ≠ [] then
    secSep ++ " METRICS & KPIs " ++ secSep ++ "\n" ++
      String.join (ms.map fun m =>
        bulletM ++ " " ++ (if m.label ≠ "" then m.label else "Metric") ++ ": " ++
          m.value ++ "\n") ++ "\n"
  else ""

def chartsSection (cs : List ChartData) : String :=
  if cs ≠ [] then
    secSep ++ " CHART DATA " ++ secSep ++ "\n" ++
      String.join (cs.enum.map fun p =>
        "Chart " ++ toString (p.1 + 1) ++ ": " ++
          (if p.2.title ≠ "" then p.2.title else "Untitled") ++ "\n" ++
          (if p.2.data ≠ [] then
            "  Data: " ++ String.intercalate ", " (p.2.data.take 50) ++ "\n"
          else "")) ++ "\n"
  else ""

def dataAttrsSection (ds : List DataAttrData) : String :=
  if ds ≠ [] then
    secSep ++ " DATA ATTRIBUTES " ++ secSep ++ "\n" ++
      String.join (ds.map fun d =>
        bulletM ++ " " ++ (if d.text ≠ "" then d.text else "Element") ++ ": " ++
          String.intercalate ", "
            (d.attributes.map fun kv => kv.1 ++ "=\"" ++ kv.2 ++ "\"") ++ "\n") ++
      "\n"
  else ""

def formsSection (fs : List FormData) : String :=
  if fs ≠ [] then
    secSep ++ " FORMS " ++ secSep ++ "\n" ++
      String.join (fs.enum.map fun p =>
        "Form " ++ toString (p.1 + 1) ++ ":\n" ++
          String.join (p.2.fields.map fun f =>
            "  " ++ bulletM ++ " [" ++ f.type ++ "] " ++ f.label ++ ": " ++
              f.value ++ "\n")) ++ "\n"
  else ""

def listsSection (ls : List ListData) : String :=
  if ls ≠ [] then
    secSep ++ " LISTS " ++ secSep ++ "\n" ++
      String.join (ls.enum.map fun p =>
        "List " ++ toString (p.1 + 1) ++ ":\n" ++
          String.join (p.2.items.enum.map fun it =>
            "  " ++ toString (it.1 + 1) ++ ". " ++ it.2 ++ "\n")) ++ "\n"
  else ""

/-- The unconditional MAIN PAGE CONTENT section:
`data.mainContent?.slice(0, 60000) || 'No content extracted'`. -/
def mainSection (mc : String) : String :=
  secSep ++ " MAIN PAGE CONTENT " ++ secSep ++ "\n" ++
    (if strTake mc 60000 ≠ "" then strTake mc 60000 else "No content extracted") ++
    "\n\n"

def visibleSection (av : String) : String :=
  if 100 < av.length then
    secSep ++ " ALL VISIBLE TEXT (BACKUP) " ++ secSep ++ "\n" ++
      strTake av 40000 ++ "\n\n"
  else ""

def linksSection (ls : List LinkData) : String :=
  if ls ≠ [] then
    secSep ++ " LINKS (" ++ toString ls.length ++ " total) " ++ secSep ++ "\n" ++
      String.intercalate "\n" ((ls.take 50).map fun l =>
        bulletM ++ " \"" ++ l.text ++ "\" " ++ arrowM ++ " " ++ l.href) ++ "\n"
  else ""

/-- `formatContentForAI`: `'Unable to extract page content.'` for a null
extraction result; otherwise the sections concatenated in source order. -/
def formatContentForAI : Option PageData → String
  | none => "Unable to extract page content."
  | some data =>
    headerBlock data ++ selectedSection data.selectedText ++
    headingsSection data.headings ++ tablesSection data.tables ++
    metricsSection data.metrics ++ chartsSection data.chartData ++
    dataAttrsSection data.dataAttributes ++ formsSection data.forms ++
    listsSection data.lists ++ mainSection data.mainContent ++
    visibleSection data.allVisibleText ++ linksSection data.links

/-- `pat` occurs as a contiguous substring of `s`. -/
def strContains (s pat : String) : Prop := pat.data <:+: s.data

instance (s pat : String) : Decidable (strContains s pat) :=
  inferInstanceAs (Decidable (pat.data <:+: s.data))

theorem strContains_append_right (s t pat : String) (h : strContains s pat) :
    strContains (s ++ t) pat := by
  unfold strContains at h ⊢
  rw [String.data_append]
  exact h.trans ⟨[], t.data, by simp⟩

theorem strContains_append_left (s t pat : String) (h : strContains t pat) :
    strContains (s ++ t) pat := by
  unfold strContains at h ⊢
  rw [String.data_append]
  exact h.trans ⟨s.data, [], by simp⟩

theorem strContains_ne_empty {s pat : String} (h : strContains s pat)
    (hp : pat ≠ "") : s ≠ "" := by
  intro hs
  apply hp
  have hd : s.data = [] := by rw [hs]
  rw [strContains, hd] at h
  have h2 := List.eq_nil_of_sublist_nil h.sublist
  cases pat with
  | mk d =>
    simp only at h2
    rw [h2]

end AITab

set_option maxRecDepth 4096

/-- Counterexample to C5: when extraction returns nothing at all (a null
result, which the claim includes), `formatContentForAI` returns the distinct
placeholder `'Unable to extract page content.'`, which does not contain the
text `'no content extracted'` (in any capitalisation — the code writes
`'No content extracted'`, which is also absent here). -/
theorem formatContentForAI_none_counterexample :
    AITab.formatContentForAI none = "Unable to extract page content." ∧
      ¬ AITab.strContains (AITab.formatContentForAI none) "no content extracted" ∧
      ¬ AITab.strContains (AITab.formatContentForAI none) "No content extracted" := by
  refine ⟨rfl, by decide, by decide⟩

/-- C5 (amended): for every extraction record in which no sections were
extracted, the formatted context is non-empty and contains the placeholder
`'No content extracted'` (capitalised as in the code); the null-extraction
case instead yields the non-empty string `'Unable to extract page
content.'`. -/
theorem formatContentForAI_empty_placeholder (d : AITab.PageData)
    (_h1 : d.selectedText = "") (_h2 : d.headings = []) (_h3 : d.tables = [])
    (_h4 : d.metrics = []) (_h5 : d.chartData = []) (_h6 : d.dataAttributes = [])
    (_h7 : d.forms = []) (_h8 : d.lists = []) (h9 : d.mainContent = "")
    (_h10 : d.allVisibleText = "") (_h11 : d.links = []) :
    (AITab.formatContentForAI (some d) ≠ "" ∧
      AITab.strContains (AITab.formatContentForAI (some d)) "No content extracted") ∧
      AITab.formatContentForAI none = "Unable to extract page content." ∧
      AITab.formatContentForAI none ≠ "" := by
  have hmc : AITab.strContains (AITab.mainSection d.mainContent)
      "No content extracted" := by
    rw [h9]; decide
  have hout : AITab.strContains (AITab.formatContentForAI (some d))
      "No content extracted" := by
    simp only [AITab.formatContentForAI]
    apply AITab.strContains_append_right
    apply AITab.strContains_append_right
    apply AITab.strContains_append_left
    exact hmc
  exact ⟨⟨AITab.strContains_ne_empty hout (by decide), hout⟩, rfl, by decide⟩

/-- An extraction record with no sections at all, witnessing C5. -/
def emptyPage : AITab.PageData :=
  { url := "https://example.com/", title := "Example", metaDescription := ""
    headings := [], tables := [], metrics := [], chartData := []
    dataAttributes := [], forms := [], lists := [], mainContent := ""
    allVisibleText := "", selectedText := "", links := [] }

/-- Witness for C5 (amended) at the concrete empty extraction record. -/
theorem formatContentForAI_empty_placeholder_witness :
    (AITab.formatContentForAI (some emptyPage) ≠ "" ∧
      AITab.strContains (AITab.formatContentForAI (some emptyPage))
        "No content extracted") ∧
      AITab.formatContentForAI none = "Unable to extract page content." ∧
      AITab.formatContentForAI none ≠ "" :=
  formatContentForAI_empty_placeholder emptyPage rfl rfl rfl rfl rfl rfl rfl rfl
    rfl rfl rfl

/-- The single table from the spec scenario: headers `Name`, `Price`, one row
`Widget`, `$10`, no caption. -/
def exTable : AITab.TableData := ⟨"", ["Name", "Price"], [["Widget", "$10"]]⟩

/-- C7: an extraction result whose tables list is exactly the one-table
scenario produces a context containing the joined header line and the joined
row line, whatever the rest of the page holds. -/
theorem formatContentForAI_table_example (d : AITab.PageData)
    (h : d.tables = [exTable]) :
    AITab.strContains (AITab.formatContentForAI (some d)) "HEADERS: Name | Price" ∧
      AITab.strContains (AITab.formatContentForAI (some d)) "ROW 1: Widget | $10" := by
  have peel : ∀ pat : String,
      AITab.strContains (AITab.tablesSection d.tables) pat →
        AITab.strContains (AITab.formatContentForAI (some d)) pat := by
    intro pat hp
    simp only [AITab.formatContentForAI]
    apply AITab.strContains_append_right
    apply AITab.strContains_append_right
    apply AITab.strContains_append_right
    apply AITab.strContains_append_right
    apply AITab.strContains_append_right
    apply AITab.strContains_append_right
    apply AITab.strContains_append_right
    apply AITab.strContains_append_right
    apply AITab.strContains_append_left
    exact hp
  exact ⟨peel _ (by rw [h]; decide), peel _ (by rw [h]; decide)⟩

/-- A concrete page holding exactly the scenario table. -/
def tablePage : AITab.PageData :=
  { emptyPage with tables := [exTable] }

/-- Witness for C7 at the concrete one-table page. -/
theorem formatContentForAI_table_example_witness :
    AITab.strContains (AITab.formatContentForAI (some tablePage))
        "HEADERS: Name | Price" ∧
      AITab.strContains (AITab.formatContentForAI (some tablePage))
        "ROW 1: Widget | $10" :=
  formatContentForAI_table_example tablePage rfl

namespace AITab

/-!
The two markdown formatters of `panel.js`: `formatMessageIncremental`
(lines 635-671, used while the typing animation is running, including on the
full text at the last step) and `formatMessage` (lines 676-712, the final
pass).  Each regex replacement of the source is modelled by a character-level
scanner below; scanners that can jump over a matched region use a fuel
argument initialised to the input length (each step consumes at least one
character, so the fuel never runs out).
-/

/-- The backtick character. -/
def btick : Char := Char.ofNat 96

/-- `.replace(/&/g, '&amp;')`. -/
def escapeAmp : List Char → List Char
  | [] => []
  | c :: cs => (if c = '&' then "&amp;".data else [c]) ++ escapeAmp cs

/-- `.replace(/</g, '&lt;')`. -/
def escapeLt : List Char → List Char
  | [] => []
  | c :: cs => (if c = '<' then "&lt;".data else [c]) ++ escapeLt cs

/-- `.replace(/>/g, '&gt;')`. -/
def escapeGt : List Char → List Char
  | [] => []
  | c :: cs => (if c = '>' then "&gt;".data else [c]) ++ escapeGt cs

/-- `\w` of the source regexes: `[A-Za-z0-9_]`. -/
def isWordChar (c : Char) : Bool := c.isAlphanum || c = '_'

/-- JavaScript `code.trim()` on a character list. -/
def trimChars (l : List Char) : List Char :=
  ((l.dropWhile Char.isWhitespace).reverse.dropWhile Char.isWhitespace).reverse

/-- Find the first occurrence of three consecutive backticks; return the
characters before it and the remainder after it.  This is how the lazy
`([\s\S]*?)` of the code-block regex stops at the nearest closing fence. -/
def findTripleBacktick : List Char → Option (List Char × List Char)
  | [] => none
  | c :: cs =>
    if c = btick ∧ cs.take 2 = [btick, btick] then some ([], cs.drop 2)
    else (findTripleBacktick cs).map fun p => (c :: p.1, p.2)

/-- Match the tail of `/```(\w*)\n?([\s\S]*?)```/` given the characters right
after an opening fence: greedy `\w*` (language tag, dropped by the
replacement), optional newline, then the lazy body up to the nearest closing
fence. -/
def matchCodeBlock (l : List Char) : Option (List Char × List Char) :=
  let afterLang := l.dropWhile isWordChar
  let afterNl := if afterLang.head? = some '\n' then afterLang.tail else afterLang
  findTripleBacktick afterNl

/-- `.replace(/```(\w*)\n?([\s\S]*?)```/g, (_, lang, code) =>
`<pre><code>TRIMMED</code></pre>`)`. -/
def replaceCodeBlocksAux : Nat → List Char → List Char
  | 0, l => l
  | _ + 1, [] => []
  | fuel + 1, c :: cs =>
    if c = btick ∧ cs.take 2 = [btick, btick] then
      match matchCodeBlock (cs.drop 2) with
      | some (code, rest) =>
        "<pre><code>".data ++ trimChars code ++ "</code></pre>".data ++
          replaceCodeBlocksAux fuel rest
      | none => c :: replaceCodeBlocksAux fuel cs
    else c :: replaceCodeBlocksAux fuel cs

/-- `.replace(/`([^`]+)`/g, '<code>$1</code>')`. -/
def replaceInlineCodeAux : Nat → List Char → List Char
  | 0, l => l
  | _ + 1, [] => []
  | fuel + 1, c :: cs =>
    if c = btick then
      let body := cs.takeWhile (fun x => x ≠ btick)
      let rest := cs.dropWhile (fun x => x ≠ btick)
      if body ≠ [] ∧ rest.head? = some btick then
        "<code>".data ++ body ++ "</code>".data ++ replaceInlineCodeAux fuel rest.tail
      else c :: replaceInlineCodeAux fuel cs
    else c :: replaceInlineCodeAux fuel cs

/-- `.replace(/\*\*([^*]+)\*\*/g, '<strong>$1</strong>')`. -/
def replaceBoldAux : Nat → List Char → List Char
  | 0, l => l
  | _ + 1, [] => []
  | fuel + 1, c :: cs =>
    if c = '*' ∧ cs.head? = some '*' then
      let afterOpen := cs.tail
      let body := afterOpen.takeWhile (fun x => x ≠ '*')
      let rest := afterOpen.dropWhile (fun x => x ≠ '*')
      if body ≠ [] ∧ rest.take 2 = ['*', '*'] then
        "<strong>".data ++ body ++ "</strong>".data ++
          replaceBoldAux fuel (rest.drop 2)
      else c :: replaceBoldAux fuel cs
    else c :: replaceBoldAux fuel cs

/-- `.replace(/(?<!\*)\*([^*]+)\*(?!\*)/g, '<em>$1</em>')`.  `prev` is the
input character just before the scan position, for the `(?<!\*)`
lookbehind (at the start of the input it is `none`). -/
def replaceItalicAux : Nat → Option Char → List Char → List Char
  | 0, _, l => l
  | _ + 1, _, [] => []
  | fuel + 1, prev, c :: cs =>
    if c = '*' ∧ prev ≠ some '*' then
      let body := cs.takeWhile (fun x => x ≠ '*')
      let rest := cs.dropWhile (fun x => x ≠ '*')
      if body ≠ [] ∧ rest.head? = some '*' ∧ rest.tail.head? ≠ some '*' then
        "<em>".data ++ body ++ "</em>".data ++
          replaceItalicAux fuel (some '*') rest.tail
      else c :: replaceItalicAux fuel (some c) cs
    else c :: replaceItalicAux fuel (some c) cs

/-- Split on newlines (the line structure seen by the `/m`-flagged
line-anchored regexes). -/
def splitOnNewline : List Char → List (List Char)
  | [] => [[]]
  | c :: cs =>
    match splitOnNewline cs with
    | [] => [[c]]
    | l :: ls => if c = '\n' then [] :: l :: ls else (c :: l) :: ls

def joinNewline : List (List Char) → List Char
  | [] => []
  | [l] => l
  | l :: ls => l ++ '\n' :: joinNewline ls

def mapLines (f : List Char → List Char) (l : List Char) : List Char :=
  joinNewline ((splitOnNewline l).map f)

/-- One line of `.replace(/^HASHES (.+)$/gm, 'TAG$1</strong>')`: the prefix
(hashes plus space) must match and the rest of the line must be non-empty. -/
def headerLine (hashes openTag : List Char) (line : List Char) : List Char :=
  if hashes.isPrefixOf line ∧ line.drop hashes.length ≠ [] then
    openTag ++ line.drop hashes.length ++ "</strong>".data
  else line

def h3Tag : List Char := "<strong style=\"font-size: 1.1em;\">".data

def h2Tag : List Char := "<strong style=\"font-size: 1.2em;\">".data

def h1Tag : List Char := "<strong style=\"font-size: 1.3em;\">".data

/-- One line of `.replace(/^[-*] (.+)$/gm, '• $1')`. -/
def bulletLine (line : List Char) : List Char :=
  if (line.head? = some '-' ∨ line.head? = some '*') ∧
      line.tail.head? = some ' ' ∧ line.drop 2 ≠ [] then
    "• ".data ++ line.drop 2
  else line

/-- One line of `.replace(/^(\d+)\. (.+)$/gm, '$1. $2')`. -/
def numberedLine (line : List Char) : List Char :=
  let ds := line.takeWhile Char.isDigit
  let rest := line.dropWhile Char.isDigit
  if ds ≠ [] ∧ rest.take 2 = ['.', ' '] ∧ rest.drop 2 ≠ [] then
    ds ++ ". ".data ++ rest.drop 2
  else line

/-- `.replace(/\n/g, '<br>')`. -/
def replaceNewlines : List Char → List Char
  | [] => []
  | c :: cs => (if c = '\n' then "<br>".data else [c]) ++ replaceNewlines cs

/-- `formatMessageIncremental` (`panel.js` lines 635-671): escape HTML, then
complete code fences, inline code, bold, italic, headings, bullets, numbered
lists, and newlines to `<br>`, in source order. -/
def formatMessageIncremental (content : String) : String :=
  let f := escapeAmp content.data
  let f := escapeLt f
  let f := escapeGt f
  let f := replaceCodeBlocksAux f.length f
  let f := replaceInlineCodeAux f.length f
  let f := replaceBoldAux f.length f
  let f := replaceItalicAux f.length none f
  let f := mapLines (headerLine "### ".data h3Tag) f
  let f := mapLines (headerLine "## ".data h2Tag) f
  let f := mapLines (headerLine "# ".data h1Tag) f
  let f := mapLines bulletLine f
  let f := mapLines numberedLine f
  let f := replaceNewlines f
  ⟨f⟩

/-- `formatMessage` (`panel.js` lines 676-712): the full-markdown final pass.
Its body is, replacement by replacement, the same pipeline as
`formatMessageIncremental` (the two source functions are textually identical
apart from comments). -/
def formatMessage (content : String) : String :=
  let f := escapeAmp content.data
  let f := escapeLt f
  let f := escapeGt f
  let f := replaceCodeBlocksAux f.length f
  let f := replaceInlineCodeAux f.length f
  let f := replaceBoldAux f.length f
  let f := replaceItalicAux f.length none f
  let f := mapLines (headerLine "### ".data h3Tag) f
  let f := mapLines (headerLine "## ".data h2Tag) f
  let f := mapLines (headerLine "# ".data h1Tag) f
  let f := mapLines bulletLine f
  let f := mapLines numberedLine f
  let f := replaceNewlines f
  ⟨f⟩

end AITab

/-- C1: formatting a complete reply with the incremental formatter (as the
last animation step does on the full text) gives exactly the same string as
the one-shot full formatter — in particular no character of the input is lost
by the incremental path relative to the full pass.  The two source functions
apply the identical sequence of replacements, so the two embeddings are
definitionally equal. -/
theorem formatMessageIncremental_eq_formatMessage (content : String) :
    AITab.formatMessageIncremental content = AITab.formatMessage content := rfl
